import Mathlib

/-!
Shallow embedding of the conversation state engine of `repstack-agent`
(`src/agent.py`, `src/session_manager.py`) together with proofs that
settle the specification claims about it.

Conventions of the embedding:
* Python dict content blocks become the inductive `Block`; a message's
  `content` field (a Python `str` or `list`) becomes `Content`.
* Python sets of ids are lists used only through membership, which agrees
  with set membership.
* Machine integers are `Nat`; the float comparisons
  `estimated < threshold * 0.8` and `int(total_chars / 2.5)` are modelled
  by the exact rational comparisons `10 * estimated < 8 * threshold` and
  `2 * totalChars / 5`, which agree with the Python float computation for
  every magnitude the agent handles.
-/

/-- Content block of a message: the tagged dict shapes produced and consumed
by `agent.py` / `session_manager.py`, plus a plain string element
(`rawStr`) and a dict with an unrecognised `type` tag (`otherDict`, which
carries its own JSON dump as `payload`). -/
inductive Block where
  | text (text : String)
  | toolUse (id : String) (name : String) (input : String)
  | toolResult (toolUseId : String) (content : String)
  | otherDict (btype : String) (payload : String)
  | rawStr (s : String)
deriving DecidableEq, Repr

/-- Content of a message: a plain string or a list of content blocks,
mirroring the two shapes `agent.py` stores. -/
inductive Content where
  | str (s : String)
  | blocks (bs : List Block)
deriving DecidableEq, Repr

/-- Message as cached by `TrainerAgent._conversations`: a dict with a
`role` string and a `content` field. -/
structure Message where
  role : String
  content : Content
deriving DecidableEq, Repr

/-- Default message used to model an out-of-range Python list index in
`_find_safe_split`; its role is neither `user` nor `assistant`, so it can
never be mistaken for a safe split message. -/
def dfltMsg : Message := ⟨"", Content.str ""⟩

/-- Tool-use ids contributed by one message, following the id-collection
loop of `_ensure_valid_history` (agent.py:357-362): only assistant
messages with list content contribute, each `tool_use` block adds its
`id`. -/
def msgToolUseIds (m : Message) : List String :=
  if m.role == "assistant" then
    match m.content with
    | Content.blocks bs =>
        bs.filterMap fun b =>
          match b with
          | Block.toolUse i _ _ => some i
          | _ => none
    | _ => []
  else []

/-- Set of all tool-use ids present in a history
(agent.py:357-362); a list used only through membership. -/
def collectToolUseIds (ms : List Message) : List String :=
  ms.flatMap msgToolUseIds

/-- Predicate of the block filter of `_ensure_valid_history`
(agent.py:369-375): a `tool_result` block is kept exactly when its
`tool_use_id` is among the collected ids; every other block is kept. -/
def keepBlock (ids : List String) : Block → Bool
  | Block.toolResult tid _ => ids.contains tid
  | _ => true

/-- Per-message cleaning step of `_ensure_valid_history`
(agent.py:366-381): a user message with list content has its orphan
`tool_result` blocks removed and is dropped entirely when that empties
it; every other message passes unchanged. -/
def cleanMsg (ids : List String) (m : Message) : Option Message :=
  if m.role == "user" then
    match m.content with
    | Content.blocks bs =>
        if (bs.filter (keepBlock ids)).isEmpty then none
        else some ⟨m.role, Content.blocks (bs.filter (keepBlock ids))⟩
    | _ => some m
  else some m

/-- History Invariant Repairer `_ensure_valid_history` (agent.py:347-387):
collect all tool-use ids, filter orphan tool results out of user
messages, then pop leading messages until the first one is a user
message. -/
def ensureValidHistory (messages : List Message) : List Message :=
  if messages.isEmpty then messages
  else
    let ids := collectToolUseIds messages
    ((messages.filterMap (cleanMsg ids)).dropWhile fun m => !(m.role == "user"))

/-- Data-Model invariant 1 (spec §3): a non-empty history starts with a
user message. -/
def invariant1 (ms : List Message) : Bool :=
  match ms with
  | [] => true
  | m :: _ => m.role == "user"

/-- Data-Model invariant 2 (spec §3, as quantified in the claims): every
`tool_result` block's `tool_use_id` matches a `tool_use` id appearing in
some assistant message of the same sequence. -/
def invariant2 (ms : List Message) : Bool :=
  let ids := collectToolUseIds ms
  ms.all fun m =>
    match m.content with
    | Content.blocks bs =>
        bs.all fun b =>
          match b with
          | Block.toolResult tid _ => ids.contains tid
          | _ => true
    | _ => true

/-- Empty-content test of Data-Model invariant 3 (spec §3): an empty
string or an empty block list. -/
def hasEmptyContent (m : Message) : Bool :=
  match m.content with
  | Content.str s => s.isEmpty
  | Content.blocks bs => bs.isEmpty

/-- Data-Model invariant 3 (spec §3): no message has empty content. -/
def invariant3 (ms : List Message) : Bool :=
  ms.all fun m => !(hasEmptyContent m)

/-- History trimmer `TrainerAgent._trim_history` (agent.py:84-95): a
history of more than 100 messages is replaced by the repaired last 80
messages; otherwise it is returned untouched. -/
def trimHistory (history : List Message) : List Message :=
  if history.length ≤ 100 then history
  else ensureValidHistory (history.drop (history.length - 80))

/-- Message derivation relation used to state the trim claim: the output
message has the same role and either identical content or a block list
that is a sublist of the input message's block list (the shape produced
by the repairer's per-message filter). -/
def msgDerived (out inp : Message) : Prop :=
  out.role = inp.role ∧
    (out.content = inp.content ∨
      ∃ bsOut bsIn, out.content = Content.blocks bsOut ∧
        inp.content = Content.blocks bsIn ∧ bsOut.Sublist bsIn)

/-- Sub-history relation: `out` is obtained from `inp` by dropping whole
messages and dropping blocks inside surviving messages — the claims'
"suffix modulo dropped orphan messages and blocks". -/
def SubHistoryOf (out inp : List Message) : Prop :=
  ∃ mid, mid.Sublist inp ∧ List.Forall₂ msgDerived out mid

/-- Minimal JSON string escaping used to model
`json.dumps(..., ensure_ascii=False)`: quotes, backslashes and the common
control characters are escaped, everything else (including non-ASCII) is
kept verbatim. -/
def jsonEscape (s : String) : String :=
  s.foldl
    (fun acc c =>
      if c = '"' then acc ++ "\\\""
      else if c = '\\' then acc ++ "\\\\"
      else if c = '\n' then acc ++ "\\n"
      else if c = '\t' then acc ++ "\\t"
      else if c = '\r' then acc ++ "\\r"
      else acc.push c)
    ""

/-- JSON rendering of a string value. -/
def jsonStr (s : String) : String := "\"" ++ jsonEscape s ++ "\""

/-- JSON rendering of one content block, with the key order in which the
repository builds these dicts (`tool_use` per `_serialize_content`,
`tool_result` per the tool loop of `chat`); the `input` of a `tool_use`
and the `payload` of an `otherDict` are carried as already-rendered JSON
text. -/
def jsonDumpBlock : Block → String
  | Block.text t =>
      "\x7b\"type\": \"text\", \"text\": " ++ jsonStr t ++ "\x7d"
  | Block.toolUse i n inp =>
      "\x7b\"type\": \"tool_use\", \"id\": " ++ jsonStr i ++ ", \"name\": "
        ++ jsonStr n ++ ", \"input\": " ++ inp ++ "\x7d"
  | Block.toolResult tid c =>
      "\x7b\"type\": \"tool_result\", \"tool_use_id\": " ++ jsonStr tid
        ++ ", \"content\": " ++ jsonStr c ++ "\x7d"
  | Block.otherDict _ payload => payload
  | Block.rawStr s => jsonStr s

/-- Model of `json.dumps(content, ensure_ascii=False)` for a block list,
with Python's default `, ` item separator. -/
def jsonDumpsBlocks (bs : List Block) : String :=
  "[" ++ String.intercalate ", " (bs.map jsonDumpBlock) ++ "]"

/-- Character contribution of one message to `_estimate_tokens`
(agent.py:224-233): raw length for string content, length of the JSON
serialization for list content.  (The `dict` and fallback `str()`
branches of the Python code are unreachable for the content shapes of
this data model.) -/
def charCount (m : Message) : Nat :=
  match m.content with
  | Content.str s => s.length
  | Content.blocks bs => (jsonDumpsBlocks bs).length

/-- Token Budget Estimator `TrainerAgent._estimate_tokens`
(agent.py:216-234): accumulate the character counts of all messages and
divide by 2.5; `int(total_chars / 2.5)` is modelled exactly as
`2 * totalChars / 5` in `Nat`. -/
def estimateTokens (history : List Message) : Nat :=
  2 * (history.foldl (fun acc m => acc + charCount m) 0) / 5

/-- Phrase of the spec's estimator description: "totalSerializedCharacters"
summed message by message. -/
def totalSerializedChars (history : List Message) : Nat :=
  (history.map charCount).sum

/-- Block-level test of `_has_tool_result` (agent.py:336-344). -/
def isToolResultBlock : Block → Bool
  | Block.toolResult _ _ => true
  | _ => false

/-- Message test `_has_tool_result` (agent.py:336-344): list content with
at least one `tool_result` block. -/
def hasToolResultMsg (m : Message) : Bool :=
  match m.content with
  | Content.blocks bs => bs.any isToolResultBlock
  | _ => false

/-- Safe-split test of `_find_safe_split` (agent.py:398): a user message
that carries no `tool_result` block. -/
def isSafeSplitMsg (m : Message) : Bool :=
  m.role == "user" && !(hasToolResultMsg m)

/-- Descending scan of `_find_safe_split` (agent.py:395-400): visit the
indices `i, i-1, ..., 1` and return the first safe index, or `target`
when the range is exhausted.  Out-of-range indices (which Python never
touches in the reachable calls) read `dfltMsg`, which is never safe. -/
def findSafeSplitGo (history : List Message) (target : Nat) : Nat → Nat
  | 0 => target
  | i + 1 =>
      if isSafeSplitMsg (history.getD (i + 1) dfltMsg) then i + 1
      else findSafeSplitGo history target i

/-- Split-point search `_find_safe_split` (agent.py:390-400): walk
backward from `target` to 1 looking for a user message without
`tool_result` blocks; fall back to `target` itself when none is found. -/
def findSafeSplit (history : List Message) (target : Nat) : Nat :=
  findSafeSplitGo history target target

/-- Synthetic summary message spliced in by `_maybe_compact`
(agent.py:284). -/
def summaryMsgOf (summaryText : String) : Message :=
  ⟨"user", Content.str ("[시스템: 이전 대화 요약]\n" ++ summaryText)⟩

/-- Fixed acknowledgment message spliced in by `_maybe_compact`
(agent.py:285). -/
def ackMsg : Message :=
  ⟨"assistant", Content.str "네, 이전 대화 내용을 기억하고 있습니다. 계속 도와드릴게요."⟩

/-- Compactor `TrainerAgent._maybe_compact` (agent.py:236-298) restricted
to its effect on the cached history.  `threshold` is
`settings.max_conversation_tokens`; the float test
`estimated < threshold * 0.8` is modelled exactly as
`10 * estimated < 8 * threshold`.  `summary` is the outcome of the
summarization model call: `none` models `messages.create` raising (the
`except` branch leaves history untouched), `some s` a reply whose first
block's text is `s`.  `replaceOk` is the boolean returned by
`SessionManager.replace_history` (session_manager.py:87-110, which
catches its own exceptions and returns `False` on failure); the agent
discards that value, so the parameter does not influence the cached
history. -/
def maybeCompact (history : List Message) (threshold : Nat)
    (summary : Option String) (_replaceOk : Bool) : List Message :=
  if 10 * estimateTokens history < 8 * threshold then history
  else if history.length < 6 then history
  else
    let splitPoint := findSafeSplit history (history.length / 2)
    let recentMessages := history.drop splitPoint
    match summary with
    | none => history
    | some s => summaryMsgOf s :: ackMsg :: recentMessages

/-- Element of the duck-typed argument of `_serialize_content`
(session_manager.py:113-135), one constructor per branch of its
attribute probing: an object with `model_dump` (whose dump is the dict
`d`), a plain dict, an object with only a `text` attribute, an object
with only a `name` attribute (plus `id`/`input` read with defaults), a
plain string (which has none of those attributes, so `str(block)` is the
string itself), and any other object with `str(block) = s`. -/
inductive SBlock where
  | modelDump (d : Block)
  | dict (d : Block)
  | textAttr (text : String)
  | nameAttr (id : String) (name : String) (input : String)
  | pyStr (s : String)
  | otherObj (s : String)
deriving DecidableEq, Repr

/-- Argument and result type of `_serialize_content`: a string or a list
of elements. -/
inductive SContent where
  | str (s : String)
  | list (bs : List SBlock)
deriving DecidableEq, Repr

/-- Per-element branch of `_serialize_content` (session_manager.py:119-134),
in the source's probing order: `model_dump()` wins, then `isinstance dict`,
then the `text` attribute, then the `name` attribute, else `str(block)`. -/
def serializeBlock : SBlock → SBlock
  | SBlock.modelDump d => SBlock.dict d
  | SBlock.dict d => SBlock.dict d
  | SBlock.textAttr t => SBlock.dict (Block.text t)
  | SBlock.nameAttr i n inp => SBlock.dict (Block.toolUse i n inp)
  | SBlock.pyStr s => SBlock.pyStr s
  | SBlock.otherObj s => SBlock.pyStr s

/-- Serializer `_serialize_content` (session_manager.py:113-135): a string
is returned as is, a list is mapped element by element. -/
def serializeContent : SContent → SContent
  | SContent.str s => SContent.str s
  | SContent.list bs => SContent.list (bs.map serializeBlock)

/-- Element shape of `_serialize_content`'s output: a dict or a plain
string. -/
def isSerializedBlock (b : SBlock) : Prop :=
  (∃ d, b = SBlock.dict d) ∨ (∃ s, b = SBlock.pyStr s)

/-- Content block of an Anthropic SDK response (`response.content`), the
shapes the agent loop inspects: a text block and a tool-use block.  Both
are pydantic objects carrying `model_dump`, so `_serialize_content` maps
them to their dict forms. -/
inductive SdkBlock where
  | text (t : String)
  | toolUse (id : String) (name : String) (input : String)
deriving DecidableEq, Repr

/-- Test `block.type == "tool_use"` of the tool loop (agent.py:153). -/
def isToolUseSdk : SdkBlock → Bool
  | SdkBlock.toolUse _ _ _ => true
  | _ => false

/-- Action of `_serialize_content` on an SDK response block: the
`model_dump` branch yields the block's dict form. -/
def serializeSdkBlock : SdkBlock → Block
  | SdkBlock.text t => Block.text t
  | SdkBlock.toolUse i n inp => Block.toolUse i n inp

/-- Outcome of invoking one tool handler on one input: a string result, a
dict result (carried as its `json.dumps` rendering), or a raised
exception with message `e`. -/
inductive ToolOutcome where
  | ok (s : String)
  | okDict (dumped : String)
  | raises (e : String)
deriving DecidableEq, Repr

/-- Tool handler table: `TOOL_HANDLERS.get(name)` yields the handler (a
function of the tool's structured input) or `none` for an unknown tool. -/
def Handlers : Type := String → Option (String → ToolOutcome)

/-- Content string of one `tool_result` block, following the tool loop of
`chat` (agent.py:154-176): unknown tool names and raised exceptions
become textual payloads; a dict result is `json.dumps`-ed, a string
result is passed through. -/
def runTool (handlers : Handlers) (name : String) (input : String) : String :=
  match handlers name with
  | none => "Unknown tool: " ++ name
  | some h =>
      match h input with
      | ToolOutcome.ok s => s
      | ToolOutcome.okDict dumped => dumped
      | ToolOutcome.raises e => "Tool error: " ++ e

/-- Tool-result block list built by the tool loop (agent.py:151-176): one
`tool_result` block per `tool_use` block of the response, carrying the
corresponding id. -/
def toolResultsFor (handlers : Handlers) (content : List SdkBlock) : List Block :=
  content.filterMap fun b =>
    match b with
    | SdkBlock.toolUse i n inp =>
        some (Block.toolResult i (runTool handlers n inp))
    | _ => none

/-- Serialized assistant message appended to history after each model
reply (agent.py:136-139). -/
def assistantMsgOf (content : List SdkBlock) : Message :=
  ⟨"assistant", Content.blocks (content.map serializeSdkBlock)⟩

/-- Synthetic user message carrying the tool results (agent.py:179-180). -/
def toolResultMsgOf (handlers : Handlers) (content : List SdkBlock) : Message :=
  ⟨"user", Content.blocks (toolResultsFor handlers content)⟩

/-- One step of the model-call oracle: iteration `i` of the agentic loop
observes `steps i`, either an `anthropic.APIError` or a reply with a stop
reason, content blocks and usage counters. -/
inductive ModelStep where
  | failure (err : String)
  | reply (stopReason : String) (content : List SdkBlock) (inTok : Nat) (outTok : Nat)
deriving DecidableEq, Repr

/-- Test for the reply constructor. -/
def ModelStep.isReply : ModelStep → Bool
  | ModelStep.reply _ _ _ _ => true
  | _ => false

/-- Result of the agentic loop of `chat` (agent.py:114-184): either the
`except anthropic.APIError` branch fired (carrying the cached history
after `history.pop()`), or the loop ended (by a non-tool-use reply or by
the iteration cap) with the history, the last response's content and the
accumulated usage counters. -/
inductive LoopResult where
  | failed (err : String) (history : List Message) (inTok : Nat) (outTok : Nat)
  | finished (history : List Message) (lastContent : List SdkBlock) (inTok : Nat) (outTok : Nat)
deriving DecidableEq, Repr

/-- Success flag a `LoopResult` induces on `chat`'s returned dict. -/
def LoopResult.ok : LoopResult → Bool
  | LoopResult.failed _ _ _ _ => false
  | LoopResult.finished _ _ _ _ => true

/-- Agentic loop of `chat` (agent.py:114-184): at most `fuel` further
iterations, the next model call being `steps i`.  A failure pops the last
history entry and aborts; a reply appends the serialized assistant
message, and when its stop reason is `tool_use` also appends the
synthetic tool-result user message and continues. -/
def chatLoop (handlers : Handlers) (steps : Nat → ModelStep) :
    Nat → Nat → List Message → List SdkBlock → Nat → Nat → LoopResult
  | 0, _, history, last, it, ot => LoopResult.finished history last it ot
  | fuel + 1, i, history, _, it, ot =>
      match steps i with
      | ModelStep.failure e => LoopResult.failed e history.dropLast it ot
      | ModelStep.reply stop content rit rot =>
          if stop == "tool_use" then
            chatLoop handlers steps fuel (i + 1)
              ((history ++ [assistantMsgOf content]) ++ [toolResultMsgOf handlers content])
              content (it + rit) (ot + rot)
          else
            LoopResult.finished (history ++ [assistantMsgOf content]) content
              (it + rit) (ot + rot)

/-- Final-answer text extraction (agent.py:201-204): join the `text`
attributes of the last response's blocks. -/
def joinTexts (content : List SdkBlock) : String :=
  String.intercalate "\n"
    (content.filterMap fun b =>
      match b with
      | SdkBlock.text t => some t
      | _ => none)

/-- Result dict of `TrainerAgent.chat` together with the user's cached
history after the turn (the mutated `self._conversations[user_id]`). -/
structure ChatResult where
  success : Bool
  message : String
  error : String
  inputTokens : Nat
  outputTokens : Nat
  history : List Message
deriving DecidableEq, Repr

/-- Turn orchestrator `TrainerAgent.chat` (agent.py:97-214) restricted to
its effect on the cached history and its returned dict: append the user
message, run the agentic loop (cap 10), and on success trim the history
and run the compactor (persistence via `save_messages` does not touch the
cache and its outcome is immaterial here).  `threshold`, `summary` and
`replaceOk` parameterize the compactor as in `maybeCompact`. -/
def chat (handlers : Handlers) (steps : Nat → ModelStep) (threshold : Nat)
    (summary : Option String) (replaceOk : Bool)
    (history0 : List Message) (message : String) : ChatResult :=
  let history1 := history0 ++ [⟨"user", Content.str message⟩]
  match chatLoop handlers steps 10 0 history1 [] 0 0 with
  | LoopResult.failed e h it ot =>
      { success := false, message := "", error := e,
        inputTokens := it, outputTokens := ot, history := h }
  | LoopResult.finished h content it ot =>
      let h2 := trimHistory h
      let h3 := maybeCompact h2 threshold summary replaceOk
      { success := true, message := joinTexts content, error := "",
        inputTokens := it, outputTokens := ot, history := h3 }

/-- History `[Assistant:[ToolUse t1], User:[ToolResult t1]]`: a paired
tool round trip whose leading assistant message the repairer pops. -/
def c1Input : List Message :=
  [⟨"assistant", Content.blocks [Block.toolUse "t1" "x" "\x7b\x7d"]⟩,
   ⟨"user", Content.blocks [Block.toolResult "t1" "ok"]⟩]

/-- Concrete scenario of the spec (§8): the history
`[User:"hi", Assistant:[ToolUse t1], User:[ToolResult t1]]` trimmed to
its last message. -/
def c1ScenarioInput : List Message :=
  [⟨"user", Content.blocks [Block.toolResult "t1" "ok"]⟩]

/-- History whose assistant message has an empty block list, which the
repairer passes through. -/
def c1EmptyContentInput : List Message :=
  [⟨"user", Content.str "hi"⟩, ⟨"assistant", Content.blocks []⟩]

/-- Paired tool round trip with a leading assistant message, used to
refute idempotence of the repairer. -/
def c3Input : List Message :=
  [⟨"assistant", Content.blocks [Block.toolUse "t2" "y" "\x7b\x7d"]⟩,
   ⟨"user", Content.blocks [Block.toolResult "t2" "done"]⟩]

/-- Handler table with no registered tools. -/
def c2Handlers : Handlers := fun _ => none

/-- Model oracle for the rollback counterexample: the first call requests
a tool, the second raises `anthropic.APIError`. -/
def c2Steps : Nat → ModelStep
  | 0 => ModelStep.reply "tool_use" [SdkBlock.toolUse "tu9" "get_today_routine" "\x7b\x7d"] 5 7
  | _ => ModelStep.failure "api down"

/-- Six assistant messages: a history with no safe split index at all. -/
def c4History : List Message :=
  List.replicate 6 ⟨"assistant", Content.str "aaaaaaaaaa"⟩

/-- History with a safe split index, to instantiate the amended
split-safety theorem. -/
def c4SafeHistory : List Message :=
  [⟨"user", Content.str "hello"⟩, ⟨"assistant", Content.str "hi"⟩,
   ⟨"user", Content.str "more"⟩, ⟨"assistant", Content.str "sure"⟩,
   ⟨"user", Content.str "again"⟩, ⟨"assistant", Content.str "yes"⟩]

/-- Six assistant messages used for the compaction-atomicity
counterexample. -/
def c5History : List Message :=
  List.replicate 6 ⟨"assistant", Content.str "bbbbbbbbbb"⟩

/-- History of 101 plain user messages, which crosses the trim cutoff. -/
def c6History : List Message :=
  List.replicate 101 ⟨"user", Content.str "hi"⟩

/-- User message holding 250 characters of text. -/
def c7Msg : Message := ⟨"user", Content.str (String.mk (List.replicate 250 'a'))⟩

/-- Response content holding one tool-use block. -/
def c8Content : List SdkBlock := [SdkBlock.toolUse "tu1" "log_exercise" "\x7b\x7d"]

/-- Model oracle that always requests the same tool round trip. -/
def c8Steps : Nat → ModelStep
  | _ => ModelStep.reply "tool_use" c8Content 3 4

/-- Handler table whose single tool always raises. -/
def c8Handlers : Handlers := fun name =>
  if name == "log_exercise" then some (fun _ => ToolOutcome.raises "boom") else none

/-- Below-cutoff history violating invariant 1 (it starts with an
assistant message). -/
def c9Bad : List Message := [⟨"assistant", Content.str "x"⟩]

/-- C1: the History Invariant Repairer does NOT always establish
Data-Model invariants 1-3.  On `[Assistant:[ToolUse t1],
User:[ToolResult t1]]` it pops the leading assistant message but keeps
the now-orphaned tool result, so invariant 2 fails on the returned
sequence (and an empty assistant block list survives, so invariant 3
can fail too); the spec's concrete trimming scenario itself does hold. -/
theorem C1_repairer_breaks_invariants :
    ensureValidHistory c1ScenarioInput = [] ∧
    ensureValidHistory c1Input =
      [⟨"user", Content.blocks [Block.toolResult "t1" "ok"]⟩] ∧
    invariant1 (ensureValidHistory c1Input) = true ∧
    invariant2 (ensureValidHistory c1Input) = false ∧
    invariant3 (ensureValidHistory c1EmptyContentInput) = false := by
  decide

/-- C2: rollback on model-call failure is NOT count-preserving at every
iteration.  When the first model call requests a tool and the second
call raises `APIError`, `history.pop()` removes the tool-result message,
leaving the user and assistant messages cached: the count after the
failed turn is 2, not the 0 it was before the turn. -/
theorem C2_rollback_bug :
    (chat c2Handlers c2Steps 1000 none true [] "hello").success = false ∧
    (chat c2Handlers c2Steps 1000 none true [] "hello").history =
      [⟨"user", Content.str "hello"⟩,
       ⟨"assistant",
        Content.blocks [Block.toolUse "tu9" "get_today_routine" "\x7b\x7d"]⟩] ∧
    (chat c2Handlers c2Steps 1000 none true [] "hello").history.length = 2 := by
  decide

/-- C3: the repairer is NOT idempotent.  A paired round trip with a
leading assistant message repairs to the lone orphaned tool-result
message, and a second pass then deletes that message. -/
theorem C3_not_idempotent :
    ensureValidHistory c3Input =
      [⟨"user", Content.blocks [Block.toolResult "t2" "done"]⟩] ∧
    ensureValidHistory (ensureValidHistory c3Input) = [] ∧
    ensureValidHistory (ensureValidHistory c3Input) ≠ ensureValidHistory c3Input := by
  decide

/-- C4 counterexample: on a history with no user message free of tool
results at all, compaction does NOT leave the history untouched — it
proceeds at the raw-midpoint fallback and replaces the history. -/
theorem C4_no_safe_split_still_compacts :
    (c4History.all fun m => !(isSafeSplitMsg m)) = true ∧
    maybeCompact c4History 1 (some "sum") true ≠ c4History := by
  decide

/-- C5 counterexample: when the replace-history store call fails
(`replace_history` returns `False`), the cached history is NOT left as it
was — the compacted history is already installed in the cache. -/
theorem C5_replace_failure_not_atomic :
    maybeCompact c5History 1 (some "sum") false ≠ c5History := by
  decide

/-- C5 amended: compaction is atomic on summarization failure only — if
the summarization call fails the cached history is untouched, and the
outcome of the replace-history call never influences the cached
history. -/
theorem C5_amended (h : List Message) (thr : Nat) (r r' : Bool) (s : String) :
    maybeCompact h thr none r = h ∧
    maybeCompact h thr (some s) r = maybeCompact h thr (some s) r' := by
  refine ⟨?_, rfl⟩
  unfold maybeCompact
  split
  · rfl
  · split
    · rfl
    · rfl

/-- Folding the character counts from an accumulator equals the
accumulator plus the summed counts. -/
theorem foldl_charCount (l : List Message) :
    ∀ n : Nat, l.foldl (fun acc m => acc + charCount m) n = n + (l.map charCount).sum := by
  induction l with
  | nil => intro n; simp
  | cons m t ih => intro n; simp [List.foldl_cons, ih, Nat.add_assoc]

/-- Exhausting the descending scan with no safe index returns the raw
target. -/
theorem findSafeSplitGo_eq_target (history : List Message) (target : Nat) :
    ∀ i, (∀ j, 1 ≤ j → j ≤ i → isSafeSplitMsg (history.getD j dfltMsg) = false) →
      findSafeSplitGo history target i = target := by
  intro i
  induction i with
  | zero => intro _; rfl
  | succ k ih =>
      intro hno
      have hc : isSafeSplitMsg (history.getD (k + 1) dfltMsg) = false :=
        hno (k + 1) (by omega) (by omega)
      unfold findSafeSplitGo
      rw [if_neg fun h => Bool.false_ne_true (hc ▸ h)]
      exact ih fun j h1 h2 => hno j h1 (by omega)

/-- When some index in `[1, i]` is safe, the descending scan lands on a
safe index inside that range. -/
theorem findSafeSplitGo_safe (history : List Message) (target : Nat) :
    ∀ i, (∃ j, 1 ≤ j ∧ j ≤ i ∧ isSafeSplitMsg (history.getD j dfltMsg) = true) →
      isSafeSplitMsg (history.getD (findSafeSplitGo history target i) dfltMsg) = true ∧
      1 ≤ findSafeSplitGo history target i ∧ findSafeSplitGo history target i ≤ i := by
  intro i
  induction i with
  | zero =>
      rintro ⟨j, h1, h2, _⟩
      exact ((by omega : False)).elim
  | succ k ih =>
      rintro ⟨j, h1, h2, hsafe⟩
      unfold findSafeSplitGo
      by_cases hk : isSafeSplitMsg (history.getD (k + 1) dfltMsg) = true
      · rw [if_pos hk]
        exact ⟨hk, by omega, Nat.le_refl _⟩
      · rw [if_neg hk]
        have hj : j ≤ k := by
          by_contra hgt
          have : j = k + 1 := by omega
          exact hk (this ▸ hsafe)
        obtain ⟨a, b, c⟩ := ih ⟨j, h1, hj, hsafe⟩
        exact ⟨a, b, by omega⟩

/-- C4 amended: the split index chosen by `_find_safe_split` is a user
message with no `tool_result` blocks whenever such an index exists in the
scanned range `[1, target]`; when none exists there the function returns
the raw midpoint `target` and compaction proceeds to split there — the
history is still compacted, not left untouched. -/
theorem C4_amended_split_safety (history : List Message) (target : Nat) :
    ((∀ j, 1 ≤ j → j ≤ target → isSafeSplitMsg (history.getD j dfltMsg) = false) →
      findSafeSplit history target = target) ∧
    ((∃ j, 1 ≤ j ∧ j ≤ target ∧ isSafeSplitMsg (history.getD j dfltMsg) = true) →
      isSafeSplitMsg (history.getD (findSafeSplit history target) dfltMsg) = true ∧
      1 ≤ findSafeSplit history target ∧ findSafeSplit history target ≤ target) ∧
    (∀ thr s r, ¬ 10 * estimateTokens history < 8 * thr → 6 ≤ history.length →
      maybeCompact history thr (some s) r =
        summaryMsgOf s :: ackMsg :: history.drop (findSafeSplit history (history.length / 2))) := by
  refine ⟨?_, ?_, ?_⟩
  · exact findSafeSplitGo_eq_target history target target
  · exact findSafeSplitGo_safe history target target
  · intro thr s r hbudget hlen
    unfold maybeCompact
    rw [if_neg hbudget, if_neg (by omega)]

/-- Witness for the amended split-safety theorem at a history whose index
2 is a plain user message. -/
theorem C4_amended_split_safety_witness :
    isSafeSplitMsg (c4SafeHistory.getD (findSafeSplit c4SafeHistory 3) dfltMsg) = true ∧
    1 ≤ findSafeSplit c4SafeHistory 3 ∧ findSafeSplit c4SafeHistory 3 ≤ 3 :=
  (C4_amended_split_safety c4SafeHistory 3).2.1 ⟨2, by decide, by decide, by decide⟩

set_option maxRecDepth 10000 in
/-- C7: the token estimate equals `⌊totalSerializedChars / 2.5⌋` over the
per-message character counts, a single user message of 250 characters
estimates to 100 tokens, and at a configured budget of 1000 tokens that
history never triggers compaction. -/
theorem C7_estimator (h : List Message) :
    estimateTokens h = 2 * totalSerializedChars h / 5 ∧
    estimateTokens [c7Msg] = 100 ∧
    (∀ s r, maybeCompact [c7Msg] 1000 s r = [c7Msg]) := by
  refine ⟨?_, by decide, ?_⟩
  · unfold estimateTokens totalSerializedChars
    rw [foldl_charCount, Nat.zero_add]
  · intro s r
    have hcond : 10 * estimateTokens [c7Msg] < 8 * 1000 := by decide
    unfold maybeCompact
    rw [if_pos hcond]

/-- Serializing twice agrees with serializing once on every element. -/
theorem serializeBlock_idem (b : SBlock) :
    serializeBlock (serializeBlock b) = serializeBlock b := by
  cases b <;> rfl

/-- Every serialized element is a dict or a plain string. -/
theorem serializeBlock_shape (b : SBlock) : isSerializedBlock (serializeBlock b) := by
  cases b
  · exact Or.inl ⟨_, rfl⟩
  · exact Or.inl ⟨_, rfl⟩
  · exact Or.inl ⟨_, rfl⟩
  · exact Or.inl ⟨_, rfl⟩
  · exact Or.inr ⟨_, rfl⟩
  · exact Or.inr ⟨_, rfl⟩

/-- C10: `_serialize_content` is idempotent, is the identity on strings
and on lists of dicts, and always returns a string or a list whose
elements are dicts or strings. -/
theorem C10_serialize_idempotent (c : SContent) :
    serializeContent (serializeContent c) = serializeContent c ∧
    (∀ s, serializeContent (SContent.str s) = SContent.str s) ∧
    (∀ ds : List Block,
      serializeContent (SContent.list (ds.map SBlock.dict)) =
        SContent.list (ds.map SBlock.dict)) ∧
    (∀ bs, serializeContent c = SContent.list bs → ∀ b ∈ bs, isSerializedBlock b) := by
  refine ⟨?_, fun s => rfl, ?_, ?_⟩
  · cases c with
    | str s => rfl
    | list bs =>
        simp only [serializeContent, List.map_map]
        exact congrArg SContent.list
          (List.map_congr_left fun b _ => serializeBlock_idem b)
  · intro ds
    simp only [serializeContent, List.map_map]
    exact congrArg SContent.list (List.map_congr_left fun d _ => rfl)
  · intro bs hbs b hb
    cases c with
    | str s => simp [serializeContent] at hbs
    | list bs0 =>
        simp only [serializeContent, SContent.list.injEq] at hbs
        subst hbs
        obtain ⟨a, _, rfl⟩ := List.mem_map.mp hb
        exact serializeBlock_shape a

/-- Witness: the output-shape clause applied at a one-element list whose
text-attribute object serializes to a dict. -/
theorem C10_serialize_idempotent_witness :
    isSerializedBlock (SBlock.dict (Block.text "hello")) :=
  (C10_serialize_idempotent (SContent.list [SBlock.textAttr "hello"])).2.2.2
    [SBlock.dict (Block.text "hello")] rfl
    (SBlock.dict (Block.text "hello")) (List.mem_cons_self _ _)

/-- Message derivation is reflexive. -/
theorem msgDerived_refl (m : Message) : msgDerived m m := ⟨rfl, Or.inl rfl⟩

/-- Every history is a sub-history of itself. -/
theorem subHistoryOf_refl (ms : List Message) : SubHistoryOf ms ms :=
  ⟨ms, List.Sublist.refl ms, List.forall₂_same.mpr fun m _ => msgDerived_refl m⟩

/-- Whatever the per-message cleaning step keeps is derived from its
input message. -/
theorem cleanMsg_derived (ids : List String) (m m' : Message)
    (h : cleanMsg ids m = some m') : msgDerived m' m := by
  unfold cleanMsg at h
  split at h
  · split at h
    next bs heq =>
      split at h
      · exact absurd h (by simp)
      · obtain rfl := Option.some.injEq _ _ ▸ h
        exact ⟨rfl, Or.inr ⟨_, bs, rfl, heq, List.filter_sublist _⟩⟩
    next =>
      obtain rfl := Option.some.injEq _ _ ▸ h
      exact msgDerived_refl m
  · obtain rfl := Option.some.injEq _ _ ▸ h
    exact msgDerived_refl m

/-- The cleaning pass of the repairer yields a sub-history of its
input. -/
theorem filterMap_cleanMsg_subHistory (ids : List String) :
    ∀ ms : List Message, SubHistoryOf (ms.filterMap (cleanMsg ids)) ms := by
  intro ms
  induction ms with
  | nil => exact ⟨[], List.Sublist.refl [], List.Forall₂.nil⟩
  | cons m t ih =>
      obtain ⟨mid, hsub, hf⟩ := ih
      cases hm : cleanMsg ids m with
      | none =>
          rw [List.filterMap_cons_none hm]
          exact ⟨mid, List.Sublist.cons m hsub, hf⟩
      | some m' =>
          rw [List.filterMap_cons_some hm]
          exact ⟨m :: mid, List.Sublist.cons₂ m hsub,
            List.Forall₂.cons (cleanMsg_derived ids m m' hm) hf⟩

/-- Pulling a sublist through a pointwise relation: a sublist of the left
side of a `Forall₂` corresponds to a sublist of the right side. -/
theorem sublist_forall₂_exists {R : Message → Message → Prop}
    {l₁ l₂ l₃ : List Message} (hsub : l₁.Sublist l₂)
    (hf : List.Forall₂ R l₂ l₃) :
    ∃ l₄, l₄.Sublist l₃ ∧ List.Forall₂ R l₁ l₄ := by
  induction hsub generalizing l₃ with
  | slnil =>
      cases hf
      exact ⟨[], List.nil_sublist _, List.Forall₂.nil⟩
  | cons a hs ih =>
      cases hf with
      | cons hR hf' =>
          obtain ⟨l₄, h1, h2⟩ := ih hf'
          exact ⟨l₄, List.Sublist.cons _ h1, h2⟩
  | cons₂ a hs ih =>
      cases hf with
      | cons hR hf' =>
          obtain ⟨l₄, h1, h2⟩ := ih hf'
          exact ⟨_ :: l₄, List.Sublist.cons₂ _ h1, List.Forall₂.cons hR h2⟩

/-- Output of the repairer is a sub-history of its input: whole messages
may be dropped and `tool_result` blocks may be filtered out of surviving
user messages, but nothing is reordered or invented. -/
theorem ensureValidHistory_subHistory (ms : List Message) :
    SubHistoryOf (ensureValidHistory ms) ms := by
  unfold ensureValidHistory
  split
  · exact subHistoryOf_refl ms
  · obtain ⟨mid, hsub, hf⟩ :=
      filterMap_cleanMsg_subHistory (collectToolUseIds ms) ms
    obtain ⟨l₄, h1, h2⟩ :=
      sublist_forall₂_exists (List.dropWhile_sublist _) hf
    exact ⟨l₄, h1.trans hsub, h2⟩

/-- Repairing never lengthens a history. -/
theorem ensureValidHistory_length_le (ms : List Message) :
    (ensureValidHistory ms).length ≤ ms.length := by
  unfold ensureValidHistory
  split
  · exact Nat.le_refl _
  · exact Nat.le_trans (List.dropWhile_sublist _).length_le
      (List.length_filterMap_le _ _)

/-- C6: a history of at most 100 messages is not trimmed; a longer one is
replaced by the repaired last-80 window, which is a suffix of the
pre-trim history, leaving at most 80 messages, and the post-trim sequence
is a sub-history of that window (a suffix modulo the orphan messages and
blocks the repairer drops). -/
theorem C6_trim_bound (h : List Message) :
    (h.length ≤ 100 → trimHistory h = h) ∧
    (100 < h.length →
      trimHistory h = ensureValidHistory (h.drop (h.length - 80)) ∧
      (h.drop (h.length - 80)).length = 80 ∧
      (trimHistory h).length ≤ 80 ∧
      (h.drop (h.length - 80)).IsSuffix h ∧
      SubHistoryOf (trimHistory h) (h.drop (h.length - 80))) := by
  constructor
  · intro hle
    unfold trimHistory
    rw [if_pos hle]
  · intro hgt
    have hne : ¬ h.length ≤ 100 := by omega
    have heq : trimHistory h = ensureValidHistory (h.drop (h.length - 80)) := by
      unfold trimHistory
      rw [if_neg hne]
    have hlen : (h.drop (h.length - 80)).length = 80 := by
      rw [List.length_drop]
      omega
    refine ⟨heq, hlen, ?_, List.drop_suffix _ _,
      heq ▸ ensureValidHistory_subHistory _⟩
    rw [heq]
    have := ensureValidHistory_length_le (h.drop (h.length - 80))
    omega

/-- Witness: a history of 101 plain user messages crosses the cutoff and
is trimmed to its repaired last-80 window. -/
theorem C6_trim_bound_witness :
    trimHistory c6History = ensureValidHistory (c6History.drop (c6History.length - 80)) ∧
    (c6History.drop (c6History.length - 80)).length = 80 ∧
    (trimHistory c6History).length ≤ 80 ∧
    (c6History.drop (c6History.length - 80)).IsSuffix c6History ∧
    SubHistoryOf (trimHistory c6History) (c6History.drop (c6History.length - 80)) :=
  (C6_trim_bound c6History).2 (by decide)

/-- C9: `_trim_history` leaves any cached history of at most 100 messages
exactly unchanged, even one that violates the structural invariants — the
repairer is not applied below the cutoff, as `c9Bad` (which starts with
an assistant message and which the repairer would rewrite) shows. -/
theorem C9_trim_frame :
    (∀ h : List Message, h.length ≤ 100 → trimHistory h = h) ∧
    trimHistory c9Bad = c9Bad ∧
    invariant1 c9Bad = false ∧
    ensureValidHistory c9Bad ≠ c9Bad := by
  refine ⟨?_, by decide, by decide, by decide⟩
  intro h hle
  unfold trimHistory
  rw [if_pos hle]

/-- Witness: the frame property applied at a concrete one-message
history. -/
theorem C9_trim_frame_witness :
    trimHistory [⟨"user", Content.str "ok"⟩] = [⟨"user", Content.str "ok"⟩] :=
  C9_trim_frame.1 [⟨"user", Content.str "ok"⟩] (by decide)

/-- Tool results pair up with the response's tool-use blocks: one
`tool_result` per `tool_use`, carrying the corresponding id and the
handler's (possibly error) payload. -/
theorem toolResultsFor_pairing (handlers : Handlers) :
    ∀ content : List SdkBlock,
      List.Forall₂
        (fun b r => ∃ tid name inp, b = SdkBlock.toolUse tid name inp ∧
          r = Block.toolResult tid (runTool handlers name inp))
        (content.filter isToolUseSdk) (toolResultsFor handlers content) := by
  intro content
  induction content with
  | nil => exact List.Forall₂.nil
  | cons b t ih =>
      cases b with
      | text s =>
          simpa [toolResultsFor, List.filter_cons, List.filterMap_cons,
            isToolUseSdk] using ih
      | toolUse tid name inp =>
          simp only [toolResultsFor, List.filter_cons, List.filterMap_cons,
            isToolUseSdk, if_true]
          exact List.Forall₂.cons ⟨tid, name, inp, rfl, rfl⟩ ih

/-- Whether the agentic loop ends in the `APIError` branch depends only
on the model-call oracle, never on the tool handlers or the history it
threads through. -/
theorem chatLoop_ok_handlers (steps : Nat → ModelStep) :
    ∀ (fuel i : Nat) (h₁ h₂ : Handlers) hist₁ hist₂ l₁ l₂ a₁ a₂ b₁ b₂,
      (chatLoop h₁ steps fuel i hist₁ l₁ a₁ b₁).ok =
        (chatLoop h₂ steps fuel i hist₂ l₂ a₂ b₂).ok := by
  intro fuel
  induction fuel with
  | zero => intros; rfl
  | succ k ih =>
      intro i h₁ h₂ hist₁ hist₂ l₁ l₂ a₁ a₂ b₁ b₂
      unfold chatLoop
      cases hst : steps i with
      | failure e => rfl
      | reply stop content rit rot =>
          dsimp only
          by_cases hs : (stop == "tool_use") = true
          · rw [if_pos hs, if_pos hs]
            exact ih _ _ _ _ _ _ _ _ _ _ _
          · rw [if_neg hs, if_neg hs]
            rfl

/-- When every model call replies (no `APIError`), the loop never fails. -/
theorem chatLoop_ok_of_replies (handlers : Handlers) (steps : Nat → ModelStep)
    (hall : ∀ j, (steps j).isReply = true) :
    ∀ (fuel i : Nat) hist l a b,
      (chatLoop handlers steps fuel i hist l a b).ok = true := by
  intro fuel
  induction fuel with
  | zero => intros; rfl
  | succ k ih =>
      intro i hist l a b
      unfold chatLoop
      cases hst : steps i with
      | failure e =>
          have := hall i
          rw [hst] at this
          exact absurd this (by simp [ModelStep.isReply])
      | reply stop content rit rot =>
          dsimp only
          by_cases hs : (stop == "tool_use") = true
          · rw [if_pos hs]
            exact ih _ _ _ _ _
          · rw [if_neg hs]
            rfl

/-- Success flag of `chat` is exactly the loop not having failed. -/
theorem chat_success_eq_ok (handlers : Handlers) (steps : Nat → ModelStep)
    (thr : Nat) (summ : Option String) (rep : Bool)
    (h0 : List Message) (msg : String) :
    (chat handlers steps thr summ rep h0 msg).success =
      (chatLoop handlers steps 10 0 (h0 ++ [⟨"user", Content.str msg⟩]) [] 0 0).ok := by
  unfold chat
  cases hL : chatLoop handlers steps 10 0 (h0 ++ [⟨"user", Content.str msg⟩]) [] 0 0 with
  | failed e h it ot => simp [hL, LoopResult.ok]
  | finished h c it ot => simp [hL, LoopResult.ok]

/-- C8: on a reply whose stop reason is `tool_use`, one loop iteration
appends exactly the serialized assistant message and one synthetic user
message holding one `tool_result` block per `tool_use` block with the
matching id; unknown tools and raising handlers yield textual payloads;
and neither can make `chat` report failure — the success flag ignores the
handlers entirely and is `true` whenever no model call raises. -/
theorem C8_tool_dispatch (handlers handlers' : Handlers)
    (steps : Nat → ModelStep) (fuel i : Nat) (hist : List Message)
    (last content : List SdkBlock) (it ot rit rot thr : Nat)
    (summ : Option String) (rep : Bool) (h0 : List Message) (msg : String)
    (hstep : steps i = ModelStep.reply "tool_use" content rit rot) :
    chatLoop handlers steps (fuel + 1) i hist last it ot =
      chatLoop handlers steps fuel (i + 1)
        ((hist ++ [assistantMsgOf content]) ++ [toolResultMsgOf handlers content])
        content (it + rit) (ot + rot) ∧
    List.Forall₂
      (fun b r => ∃ tid name inp, b = SdkBlock.toolUse tid name inp ∧
        r = Block.toolResult tid (runTool handlers name inp))
      (content.filter isToolUseSdk) (toolResultsFor handlers content) ∧
    (∀ name inp, handlers name = none →
      runTool handlers name inp = "Unknown tool: " ++ name) ∧
    (∀ name inp e hfn, handlers name = some hfn → hfn inp = ToolOutcome.raises e →
      runTool handlers name inp = "Tool error: " ++ e) ∧
    ((∀ j, (steps j).isReply = true) →
      (chat handlers steps thr summ rep h0 msg).success = true) ∧
    (chat handlers steps thr summ rep h0 msg).success =
      (chat handlers' steps thr summ rep h0 msg).success := by
  refine ⟨?_, toolResultsFor_pairing handlers content, ?_, ?_, ?_, ?_⟩
  · conv_lhs => unfold chatLoop
    rw [hstep]
    dsimp only
    rw [if_pos (beq_self_eq_true "tool_use")]
  · intro name inp hnone
    simp [runTool, hnone]
  · intro name inp e hfn h1 h2
    simp [runTool, h1, h2]
  · intro hall
    rw [chat_success_eq_ok]
    exact chatLoop_ok_of_replies handlers steps hall 10 0 _ [] 0 0
  · rw [chat_success_eq_ok, chat_success_eq_ok]
    exact chatLoop_ok_handlers steps 10 0 handlers handlers' _ _ [] [] 0 0 0 0

/-- Witness: the tool-dispatch theorem instantiated at a turn whose model
oracle always requests `log_exercise` (whose handler always raises). -/
theorem C8_tool_dispatch_witness :
    (chatLoop c8Handlers c8Steps 3 0 [] [] 0 0 =
      chatLoop c8Handlers c8Steps 2 1
        (([] ++ [assistantMsgOf c8Content]) ++ [toolResultMsgOf c8Handlers c8Content])
        c8Content (0 + 3) (0 + 4)) ∧
    List.Forall₂
      (fun b r => ∃ tid name inp, b = SdkBlock.toolUse tid name inp ∧
        r = Block.toolResult tid (runTool c8Handlers name inp))
      (c8Content.filter isToolUseSdk) (toolResultsFor c8Handlers c8Content) ∧
    (∀ name inp, c8Handlers name = none →
      runTool c8Handlers name inp = "Unknown tool: " ++ name) ∧
    (∀ name inp e hfn, c8Handlers name = some hfn → hfn inp = ToolOutcome.raises e →
      runTool c8Handlers name inp = "Tool error: " ++ e) ∧
    ((∀ j, (c8Steps j).isReply = true) →
      (chat c8Handlers c8Steps 1000 none true [] "hi").success = true) ∧
    (chat c8Handlers c8Steps 1000 none true [] "hi").success =
      (chat c8Handlers c8Steps 1000 none true [] "hi").success :=
  C8_tool_dispatch c8Handlers c8Handlers c8Steps 2 0 [] [] c8Content 0 0 3 4
    1000 none true [] "hi" rfl
